import Mathlib

/-!
Verification of the meal-planning onboarding flow of the `hackathons`
repository (project `202509_AITinkerers`).

The frontend (React, `app/src/components/`) is embedded shallowly:
component state becomes explicit `FlowState` values, the event handlers
become pure state-transition functions, and the external HTTP calls
become explicit `FetchOutcome` inputs.  Backend components that the
design document describes but that are absent from the sources
(calorie math, ingredient aggregation, the checkout adapter) are
modelled from the specification and marked as such in their doc
comments.
-/

namespace Hackathons

/-- Nutrition facts of a meal, from `MealPlanDisplay.tsx` (`Nutrition`).
JSON numbers are modelled as rationals. -/
structure Nutrition where
  calories : ℚ
  grams_protein : ℚ
  grams_carbs : ℚ
  grams_fat : ℚ
deriving DecidableEq

/-- Meal-type tag, from `MealPlanDisplay.tsx` (`'breakfast' | 'lunch/dinner'`). -/
inductive MealType where
  | breakfast
  | lunchDinner
deriving DecidableEq

/-- A meal, from `MealPlanDisplay.tsx` (`Meal`). -/
structure Meal where
  name : String
  description : String
  num_servings : ℚ
  nutrition : Nutrition
  meal_type : MealType
  diet_type : String
  allergens : List String
deriving DecidableEq

/-- A meal plan, from `MealPlanDisplay.tsx` (`MealPlan`): just a list of
meals, with no structural constraint on count or split. -/
structure MealPlan where
  meals : List Meal
deriving DecidableEq

/-- The accumulated onboarding answers, from `OnboardingFlow.tsx`
(`OnboardingData`). -/
structure OnboardingData where
  mealTypes : List String
  dietaryPreferences : List String
  goals : List String
deriving DecidableEq

/-- The component state of `OnboardingFlow`: the `currentStep` counter,
the `onboardingData` record and the `generatedMealPlan` (nullable). -/
structure FlowState where
  currentStep : Nat
  data : OnboardingData
  plan : Option MealPlan
deriving DecidableEq

/-- The possible outcomes of the `fetch` in `handleGoalsSubmit`:
a parsed 2xx JSON body, a non-2xx status (thrown and caught), or a
network error (rejected promise, caught). -/
inductive FetchOutcome where
  | success (plan : MealPlan)
  | httpError (status : Nat)
  | networkError
deriving DecidableEq

/-- The initial `onboardingData` value of `OnboardingFlow`. -/
def emptyData : OnboardingData :=
  { mealTypes := [], dietaryPreferences := [], goals := [] }

/-- The initial component state of `OnboardingFlow` (`useState(0)`,
empty lists, `null` plan). -/
def initialState : FlowState :=
  { currentStep := 0, data := emptyData, plan := none }

/-- `handleMealTypesSubmit` of `OnboardingFlow.tsx`: spread-update the
`mealTypes` field and move to step 1. -/
def handleMealTypesSubmit (s : FlowState) (selectedTypes : List String) :
    FlowState :=
  { s with data := { s.data with mealTypes := selectedTypes }, currentStep := 1 }

/-- `handleDietaryPreferencesSubmit` of `OnboardingFlow.tsx`. -/
def handleDietaryPreferencesSubmit (s : FlowState)
    (selectedPreferences : List String) : FlowState :=
  { s with
    data := { s.data with dietaryPreferences := selectedPreferences }
    currentStep := 2 }

/-- `handleGoalsSubmit` of `OnboardingFlow.tsx`: record the goals, move
to the loading step (3), then fetch.  On a 2xx response the parsed body
is stored as the plan, unvalidated, and the step becomes 4.  A non-2xx
status throws, and both it and a network error land in the `catch`
block, which only logs: the state keeps step 3 and the previous plan. -/
def handleGoalsSubmit (s : FlowState) (selectedGoals : List String)
    (outcome : FetchOutcome) : FlowState :=
  let d := { s.data with goals := selectedGoals }
  match outcome with
  | .success plan => { currentStep := 4, data := d, plan := some plan }
  | .httpError _ => { currentStep := 3, data := d, plan := s.plan }
  | .networkError => { currentStep := 3, data := d, plan := s.plan }

/-- `handleBack` of `OnboardingFlow.tsx`: decrement `currentStep` when
it is positive. -/
def handleBack (s : FlowState) : FlowState :=
  if 0 < s.currentStep then { s with currentStep := s.currentStep - 1 } else s

/-- `handleStartOver` of `OnboardingFlow.tsx`: step 0, empty answers,
`null` plan. -/
def handleStartOver (_s : FlowState) : FlowState :=
  { currentStep := 0, data := emptyData, plan := none }

/-- What `OnboardingFlow` renders for a given state.  There is no error
screen among the alternatives; step 4 without a plan renders nothing. -/
inductive Screen where
  | mealTypeScreen
  | dietaryPreferencesScreen
  | goalsScreen
  | generatingScreen
  | planDisplay (p : MealPlan)
  | blank
deriving DecidableEq

/-- The conditional rendering of `OnboardingFlow.tsx` (the chain of
`currentStep === n &&` clauses; `MealPlanDisplay` additionally requires
`generatedMealPlan` to be non-null). -/
def render (s : FlowState) : Screen :=
  if s.currentStep = 0 then .mealTypeScreen
  else if s.currentStep = 1 then .dietaryPreferencesScreen
  else if s.currentStep = 2 then .goalsScreen
  else if s.currentStep = 3 then .generatingScreen
  else if s.currentStep = 4 then
    match s.plan with
    | some p => .planDisplay p
    | none => .blank
  else .blank

/-- The externally triggerable operations of the flow.  Submissions carry
the selection of their screen; goal submission also carries the outcome
of the generation request; `back` is the Back button of steps 1 and 2;
`startOver` is `handleStartOver`. -/
inductive Op where
  | submitMealTypes (l : List String)
  | submitDietary (l : List String)
  | submitGoals (l : List String) (r : FetchOutcome)
  | back
  | startOver
deriving DecidableEq

/-- One step of the flow.  Each handler can only fire while its screen is
rendered (the conditional rendering of `OnboardingFlow.tsx` guards the
buttons): meal types at step 0, dietary preferences at step 1, goals at
step 2, Back on the screens of steps 1 and 2, Start Over on the plan
display of step 4. -/
def stepOp (s : FlowState) : Op → FlowState
  | .submitMealTypes l => if s.currentStep = 0 then handleMealTypesSubmit s l else s
  | .submitDietary l =>
      if s.currentStep = 1 then handleDietaryPreferencesSubmit s l else s
  | .submitGoals l r => if s.currentStep = 2 then handleGoalsSubmit s l r else s
  | .back => if s.currentStep = 1 ∨ s.currentStep = 2 then handleBack s else s
  | .startOver =>
      if s.currentStep = 4 ∧ s.plan.isSome then handleStartOver s else s

/-- The toggle pattern shared verbatim by `toggleMealType`
(`MealTypeScreen.tsx`), `togglePreference`
(`DietaryPreferencesScreen.tsx`) and `toggleGoal` (`GoalsScreen.tsx`):
`prev.includes(x) ? prev.filter(y => y !== x) : [...prev, x]`. -/
def toggle (l : List String) (x : String) : List String :=
  if x ∈ l then l.filter (fun y => y ≠ x) else l ++ [x]

/-- A partial update of the onboarding answers: each field optional, as
in the patch view of the intake merge.  Each submit handler of
`OnboardingFlow.tsx` is the special case with exactly one field present. -/
structure OnboardingPatch where
  mealTypes : Option (List String)
  dietaryPreferences : Option (List String)
  goals : Option (List String)
deriving DecidableEq

/-- The field-by-field merge implemented by the spread updates of the
submit handlers: a present patch field overwrites, an absent field keeps
the state value. -/
def mergeIntake (s : OnboardingData) (p : OnboardingPatch) : OnboardingData :=
  { mealTypes := p.mealTypes.getD s.mealTypes
    dietaryPreferences := p.dietaryPreferences.getD s.dietaryPreferences
    goals := p.goals.getD s.goals }

/-- An ingredient line, from `IngredientsDisplay.tsx` (`Ingredient`):
name, quantity, unit.  Quantities are JSON numbers, modelled as
rationals. -/
structure Ingredient where
  name : String
  qty : ℚ
  unit : String
deriving DecidableEq

/-- The aggregation key of an input ingredient line: the
lowercase-normalized name paired with the unit (spec section 3,
"Identity for aggregation purposes = (normalized name, unit) pair"). -/
def normKey (i : Ingredient) : String × String :=
  (i.name.toLower, i.unit)

/-- The key of a consolidated output line (names in the output are
already normalized to lowercase). -/
def outKey (i : Ingredient) : String × String :=
  (i.name, i.unit)

/-- Modelled from the spec: one insertion step of the Ingredient
Aggregator of section 4.5, which is backend code absent from the
sources.  The line's quantity is added to the existing consolidated
entry with the same (lowercase name, unit) key, or a fresh entry is
appended in first-seen order. -/
def addIngredient : List Ingredient → Ingredient → List Ingredient
  | [], i => [{ name := i.name.toLower, qty := i.qty, unit := i.unit }]
  | j :: rest, i =>
      if j.name = i.name.toLower ∧ j.unit = i.unit then
        { name := j.name, qty := j.qty + i.qty, unit := j.unit } :: rest
      else
        j :: addIngredient rest i

/-- Modelled from the spec: `aggregate` of section 4.5 (backend code
absent from the sources).  Recipes are represented by their ordered
ingredient-line lists; every line across every recipe is folded into the
consolidated list. -/
def aggregate (recipes : List (List Ingredient)) : List Ingredient :=
  recipes.flatten.foldl addIngredient []

/-- Total quantity contributed by the input recipes to a given
(normalized name, unit) key. -/
def inputQty (recipes : List (List Ingredient)) (k : String × String) : ℚ :=
  ((recipes.flatten.filter (fun i => normKey i = k)).map Ingredient.qty).sum

/-- Quantity recorded for a key in a consolidated list. -/
def outQty (l : List Ingredient) (k : String × String) : ℚ :=
  ((l.filter (fun i => outKey i = k)).map Ingredient.qty).sum

/-- Sex, from the spec's Profile data model (section 3). -/
inductive Sex where
  | male
  | female
deriving DecidableEq

/-- Activity level, from the spec's Profile data model (section 3). -/
inductive ActivityLevel where
  | sedentary
  | light
  | moderate
  | active
  | veryActive
deriving DecidableEq

/-- Modelled from the spec: the Profile entity of section 3 (the domain
model is backend code absent from the sources). -/
structure Profile where
  age : ℚ
  sex : Sex
  height_cm : ℚ
  weight_kg : ℚ
  activity : ActivityLevel
deriving DecidableEq

/-- Goal direction, from the spec's Goal data model (section 3). -/
inductive GoalDirection where
  | lose
  | maintain
  | gain
deriving DecidableEq

/-- Goal rate category, from the spec's Goal data model (section 3). -/
inductive RateCategory where
  | slow
  | moderate
  | aggressive
deriving DecidableEq

/-- Modelled from the spec: the Goal entity of section 3. -/
structure Goal where
  direction : GoalDirection
  rate : RateCategory
deriving DecidableEq

/-- Modelled from the spec: the fixed activity multipliers of section 3
(standard Mifflin-St Jeor activity factors). -/
def activityMultiplier : ActivityLevel → ℚ
  | .sedentary => 6 / 5
  | .light => 11 / 8
  | .moderate => 31 / 20
  | .active => 69 / 40
  | .veryActive => 19 / 10

/-- Modelled from the spec: the fixed daily caloric surplus/deficit
magnitude per rate category (section 3). -/
def rateDelta : RateCategory → ℚ
  | .slow => 250
  | .moderate => 500
  | .aggressive => 750

/-- The documented safety calorie floor of section 4.1 (the spec's
example value, 1200 kcal/day). -/
def calorieFloor : ℚ := 1200

/-- Modelled from the spec: `compute_basal` of section 4.1, the
Mifflin-St Jeor formula with its sex-branching constant term. -/
def compute_basal (p : Profile) : ℚ :=
  10 * p.weight_kg + 25 / 4 * p.height_cm - 5 * p.age +
    (match p.sex with
     | .male => 5
     | .female => -161)

/-- The signed daily calorie delta of a goal: a deficit for `lose`, zero
for `maintain`, a surplus for `gain` (section 3). -/
def goalDelta (g : Goal) : ℚ :=
  match g.direction with
  | .lose => -(rateDelta g.rate)
  | .maintain => 0
  | .gain => rateDelta g.rate

/-- Modelled from the spec: `compute_target` of section 4.1 — basal
times activity multiplier, plus the goal's signed delta, clamped to the
safety floor. -/
def compute_target (p : Profile) (g : Goal) : ℚ :=
  max calorieFloor (compute_basal p * activityMultiplier p.activity + goalDelta g)

/-- Result of the Checkout Adapter: a checkout URL plus the mode flag
distinguishing the real provider from the mock fallback (section 4.6). -/
structure CheckoutResult where
  url : String
  mode : String
deriving DecidableEq

/-- Modelled from the spec: the deterministic mock checkout URL returned
in degraded mode (section 4.6). -/
def mockCheckoutUrl : String := "https://checkout.mock.local/cart"

/-- A syntactic URL check: the string starts with the characters of
"https://". -/
def isValidUrl (s : String) : Prop :=
  s.data.take 8 = "https://".data

instance (s : String) : Decidable (isValidUrl s) := by
  unfold isValidUrl
  infer_instance

/-- Modelled from the spec: `checkout` of section 4.6 (the Checkout
Adapter is backend code absent from the sources).  It is a total
function — it never throws: with credentials and a reachable service it
returns the provider URL in live mode, otherwise it degrades to the
deterministic mock URL with `mode = "mock"`. -/
def checkout (hasCredentials : Bool) (serviceReachable : Bool)
    (providerUrl : String) (_ingredients : List Ingredient) : CheckoutResult :=
  if hasCredentials ∧ serviceReachable then
    { url := providerUrl, mode := "live" }
  else
    { url := mockCheckoutUrl, mode := "mock" }

/-! ### Concrete values used in counterexamples and witnesses -/

/-- A generation response body with zero meals. -/
def emptyPlan : MealPlan := { meals := [] }

/-- A nutrition record with a negative calorie count. -/
def negNutrition : Nutrition :=
  { calories := -100
    grams_protein := 0
    grams_carbs := 0
    grams_fat := 0 }

/-- An unremarkable valid nutrition record. -/
def okNutrition : Nutrition :=
  { calories := 400
    grams_protein := 20
    grams_carbs := 40
    grams_fat := 10 }

/-- A meal with the given name, tag and nutrition facts. -/
def mkMeal (n : String) (t : MealType) (nut : Nutrition) : Meal :=
  { name := n
    description := ""
    num_servings := 1
    nutrition := nut
    meal_type := t
    diet_type := "none"
    allergens := [] }

/-- A five-meal plan with the right 2/3 split but one negative calorie
value. -/
def negPlan : MealPlan :=
  { meals := [mkMeal "b1" .breakfast negNutrition,
      mkMeal "b2" .breakfast okNutrition,
      mkMeal "m1" .lunchDinner okNutrition,
      mkMeal "m2" .lunchDinner okNutrition,
      mkMeal "m3" .lunchDinner okNutrition] }

/-- A flow state sitting at the goals screen with no answers yet. -/
def goalsState : FlowState :=
  { currentStep := 2, data := emptyData, plan := none }

/-! ### Claim theorems -/

/-- C1 counterexample: at the goals screen, a successful generation
response whose body carries zero meals is stored verbatim as the
session's plan by the goals-submission operation, so a WeekPlan
violating the 5-recipe 2/3-split invariant is accepted — nothing
validates the generated structure before acceptance. -/
theorem weekPlan_unvalidated_cex :
    (stepOp goalsState (Op.submitGoals [] (FetchOutcome.success emptyPlan))).plan
        = some emptyPlan
    ∧ emptyPlan.meals.length ≠ 5 := by
  exact ⟨rfl, by decide⟩

/-- C1 amended: once set, the stored plan is exactly the meal list of
the successful generation response, with no count or split validation:
any structure carried by a 2xx body is stored, the step becomes 4 and
that same plan is rendered. -/
theorem handleGoalsSubmit_stores_any_plan (s : FlowState) (g : List String)
    (p : MealPlan) :
    (handleGoalsSubmit s g (.success p)).plan = some p
    ∧ (handleGoalsSubmit s g (.success p)).currentStep = 4
    ∧ render (handleGoalsSubmit s g (.success p)) = Screen.planDisplay p :=
  ⟨rfl, rfl, rfl⟩

/-- C2: the intake merge is additive and idempotent: merging the same
patch twice equals merging it once, a present patch field overwrites the
state field, an absent field leaves the state field unchanged (never
clearing a previously set value), and each submit handler's data update
is exactly the merge with its one-field patch. -/
theorem mergeIntake_additive_idempotent (s : FlowState) (d : OnboardingData)
    (p : OnboardingPatch) (l : List String) :
    mergeIntake (mergeIntake d p) p = mergeIntake d p
    ∧ (∀ v, p.mealTypes = some v → (mergeIntake d p).mealTypes = v)
    ∧ (∀ v, p.dietaryPreferences = some v →
        (mergeIntake d p).dietaryPreferences = v)
    ∧ (∀ v, p.goals = some v → (mergeIntake d p).goals = v)
    ∧ (p.mealTypes = none → (mergeIntake d p).mealTypes = d.mealTypes)
    ∧ (p.dietaryPreferences = none →
        (mergeIntake d p).dietaryPreferences = d.dietaryPreferences)
    ∧ (p.goals = none → (mergeIntake d p).goals = d.goals)
    ∧ (handleMealTypesSubmit s l).data
        = mergeIntake s.data { mealTypes := some l, dietaryPreferences := none, goals := none }
    ∧ (handleDietaryPreferencesSubmit s l).data
        = mergeIntake s.data { mealTypes := none, dietaryPreferences := some l, goals := none } := by
  obtain ⟨mt, dp, g⟩ := p
  refine ⟨?_, ?_, ?_, ?_, ?_, ?_, ?_, rfl, rfl⟩
  · cases mt <;> cases dp <;> cases g <;> rfl
  · intro v hv
    simp only at hv
    simp [mergeIntake, hv]
  · intro v hv
    simp only at hv
    simp [mergeIntake, hv]
  · intro v hv
    simp only at hv
    simp [mergeIntake, hv]
  · intro hv
    simp only at hv
    simp [mergeIntake, hv]
  · intro hv
    simp only at hv
    simp [mergeIntake, hv]
  · intro hv
    simp only at hv
    simp [mergeIntake, hv]

/-- Witness for C2 at a concrete state and patch: the present field is
overwritten and the absent field keeps its captured value. -/
theorem mergeIntake_additive_idempotent_witness :
    (mergeIntake ⟨["a"], ["b"], ["c"]⟩ ⟨some ["x"], none, none⟩).mealTypes = ["x"]
    ∧ (mergeIntake ⟨["a"], ["b"], ["c"]⟩ ⟨some ["x"], none, none⟩).goals = ["c"] :=
  ⟨(mergeIntake_additive_idempotent initialState ⟨["a"], ["b"], ["c"]⟩
      ⟨some ["x"], none, none⟩ []).2.1 ["x"] rfl,
   (mergeIntake_additive_idempotent initialState ⟨["a"], ["b"], ["c"]⟩
      ⟨some ["x"], none, none⟩ []).2.2.2.2.2.2.1 rfl⟩

/-- C5 counterexample: at step 1 the Back button is available, and
pressing it decreases the step counter from 1 to 0 even though it is not
the reset operation. -/
theorem stage_counter_back_cex :
    (stepOp { currentStep := 1, data := emptyData, plan := none } Op.back).currentStep
        < ({ currentStep := 1, data := emptyData, plan := none } : FlowState).currentStep
    ∧ Op.back ≠ Op.startOver := by
  refine ⟨?_, by decide⟩
  decide

/-- C5 amended: the stage counter never decreases under any operation
other than the Back button (which decrements it by one on steps 1 and 2)
and the explicit Start Over reset. -/
theorem stage_counter_monotone_except_back_reset (s : FlowState) (op : Op)
    (hb : op ≠ Op.back) (hr : op ≠ Op.startOver) :
    s.currentStep ≤ (stepOp s op).currentStep := by
  cases op with
  | submitMealTypes l =>
      by_cases h : s.currentStep = 0
      · simp [stepOp, handleMealTypesSubmit, h]
      · simp [stepOp, h]
  | submitDietary l =>
      by_cases h : s.currentStep = 1
      · simp [stepOp, handleDietaryPreferencesSubmit, h]
      · simp [stepOp, h]
  | submitGoals l r =>
      by_cases h : s.currentStep = 2
      · cases r <;> simp [stepOp, handleGoalsSubmit, h]
      · simp [stepOp, h]
  | back => exact absurd rfl hb
  | startOver => exact absurd rfl hr

/-- Witness for the amended C5 at a concrete state and operation. -/
theorem stage_counter_monotone_except_back_reset_witness :
    initialState.currentStep
      ≤ (stepOp initialState (Op.submitMealTypes ["Veggie"])).currentStep :=
  stage_counter_monotone_except_back_reset initialState
    (Op.submitMealTypes ["Veggie"]) (by decide) (by decide)

/-- C6 counterexample: a generation response with the right count and
split but a negative calorie value — a structural-contract violation —
is accepted into the session state with no failure: the plan is stored
and the flow advances to the display step. -/
theorem invalid_generation_accepted_cex :
    (mkMeal "b1" MealType.breakfast negNutrition).nutrition.calories < 0
    ∧ mkMeal "b1" MealType.breakfast negNutrition ∈ negPlan.meals
    ∧ (handleGoalsSubmit goalsState [] (FetchOutcome.success negPlan)).plan
        = some negPlan
    ∧ (handleGoalsSubmit goalsState [] (FetchOutcome.success negPlan)).currentStep
        = 4 := by
  refine ⟨by norm_num [mkMeal, negNutrition], ?_, rfl, rfl⟩
  simp [negPlan]

/-- C6 amended: plan generation fails only on transport-level failures
(a non-2xx status, thrown and caught, or a network error), which leave
the plan unchanged and the flow on the generating step; a parsed 2xx
body is accepted into the state without structural validation — the flow
has no contract-error pathway. -/
theorem generation_transport_failures_only (s : FlowState) (g : List String)
    (p : MealPlan) (st : Nat) :
    (handleGoalsSubmit s g (.success p)).plan = some p
    ∧ (handleGoalsSubmit s g (.httpError st)).currentStep = 3
    ∧ (handleGoalsSubmit s g (.httpError st)).plan = s.plan
    ∧ (handleGoalsSubmit s g .networkError).currentStep = 3
    ∧ (handleGoalsSubmit s g .networkError).plan = s.plan :=
  ⟨rfl, rfl, rfl, rfl, rfl⟩

/-- C8: Start Over always returns the flow to the fresh zero-stage
state: step 0, empty answers, no plan, and the next render is the first
intake screen. -/
theorem handleStartOver_fresh_state (s : FlowState) :
    handleStartOver s = initialState
    ∧ (handleStartOver s).currentStep = 0
    ∧ (handleStartOver s).data = emptyData
    ∧ (handleStartOver s).plan = none
    ∧ render (handleStartOver s) = Screen.mealTypeScreen :=
  ⟨rfl, rfl, rfl, rfl, rfl⟩

/-- C9: when the generation request fails — non-2xx response or network
error — the flow stays on the generating step 3, the stored plan is
unchanged (in particular it stays null when it was null), the collected
onboarding answers are preserved with the submitted goals recorded, and
the rendered screen is the generating screen: no error screen exists and
no plan display can result from a failed request. -/
theorem generation_failure_preserves_state (s : FlowState) (g : List String)
    (st : Nat) :
    (handleGoalsSubmit s g (.httpError st)).currentStep = 3
    ∧ (handleGoalsSubmit s g .networkError).currentStep = 3
    ∧ (handleGoalsSubmit s g (.httpError st)).plan = s.plan
    ∧ (handleGoalsSubmit s g .networkError).plan = s.plan
    ∧ (handleGoalsSubmit s g (.httpError st)).data = { s.data with goals := g }
    ∧ (s.plan = none → (handleGoalsSubmit s g (.httpError st)).plan = none)
    ∧ render (handleGoalsSubmit s g (.httpError st)) = Screen.generatingScreen
    ∧ render (handleGoalsSubmit s g .networkError) = Screen.generatingScreen := by
  refine ⟨rfl, rfl, rfl, rfl, rfl, ?_, rfl, rfl⟩
  intro h
  simp [handleGoalsSubmit, h]

/-- Witness for C9 at a concrete failing request from the goals
screen. -/
theorem generation_failure_preserves_state_witness :
    (handleGoalsSubmit goalsState ["Save money"] (.httpError 500)).plan = none :=
  (generation_failure_preserves_state goalsState ["Save money"] 500).2.2.2.2.2.1 rfl

/-- C10: toggling an option flips exactly that option's membership,
leaves every other option's membership unchanged, maps a duplicate-free
selection to a duplicate-free selection, and toggling the same option
twice restores the original membership. -/
theorem toggle_membership (l : List String) (x : String) :
    (x ∈ toggle l x ↔ x ∉ l)
    ∧ (∀ y, y ≠ x → (y ∈ toggle l x ↔ y ∈ l))
    ∧ (l.Nodup → (toggle l x).Nodup)
    ∧ (∀ y, y ∈ toggle (toggle l x) x ↔ y ∈ l) := by
  by_cases hx : x ∈ l
  · have hfx : x ∉ l.filter (fun y => y ≠ x) := by simp
    refine ⟨?_, ?_, ?_, ?_⟩
    · rw [toggle, if_pos hx]
      simp [hx]
    · intro y hy
      rw [toggle, if_pos hx]
      simp [hy]
    · intro h
      rw [toggle, if_pos hx]
      exact h.filter _
    · intro y
      have ht : toggle l x = l.filter (fun y => y ≠ x) := by
        rw [toggle, if_pos hx]
      rw [ht, toggle, if_neg hfx]
      by_cases hyx : y = x
      · subst hyx
        simp [hx]
      · simp [hyx]
  · refine ⟨?_, ?_, ?_, ?_⟩
    · rw [toggle, if_neg hx]
      simp [hx]
    · intro y hy
      rw [toggle, if_neg hx]
      simp [hy]
    · intro h
      rw [toggle, if_neg hx]
      simp [List.nodup_append, h, hx]
    · intro y
      have hx2 : x ∈ l ++ [x] := by simp
      have ht : toggle l x = l ++ [x] := by
        rw [toggle, if_neg hx]
      rw [ht, toggle, if_pos hx2]
      by_cases hyx : y = x
      · subst hyx
        simp [hx]
      · simp [hyx]

/-- Witness for C10 at a concrete selection and option. -/
theorem toggle_membership_witness :
    ("c" ∈ toggle ["a", "b"] "c" ↔ "c" ∉ ["a", "b"])
    ∧ (toggle ["a", "b"] "c").Nodup :=
  ⟨(toggle_membership ["a", "b"] "c").1,
   (toggle_membership ["a", "b"] "c").2.2.1 (by decide)⟩

/-- The end-to-end example profile of the design document's section 8:
age 30, sex f, height 165, weight 60, moderate activity. -/
def exampleProfile : Profile := ⟨30, Sex.female, 165, 60, ActivityLevel.moderate⟩

/-- The most aggressive weight-loss goal: the hardest case for the
safety floor. -/
def aggressiveLoss : Goal := ⟨GoalDirection.lose, RateCategory.aggressive⟩

/-- C4: for every fully populated, in-range profile and goal, the target
computation is deterministic (a pure function: equal inputs give equal
outputs) and its value never falls below the documented 1200 kcal safety
floor, however aggressive the requested deficit. -/
theorem compute_target_deterministic_floor (p q : Profile) (g h : Goal)
    (_hage : 0 < p.age) (_hheight : 0 < p.height_cm)
    (_hweight : 0 < p.weight_kg) (hpq : p = q) (hgh : g = h) :
    compute_target p g = compute_target q h
    ∧ calorieFloor ≤ compute_target p g := by
  subst hpq
  subst hgh
  exact ⟨rfl, le_max_left _ _⟩

/-- Witness for C4 at the spec's example profile with the most
aggressive deficit. -/
theorem compute_target_deterministic_floor_witness :
    (0 : ℚ) < 30 ∧ (0 : ℚ) < 165 ∧ (0 : ℚ) < 60
    ∧ calorieFloor ≤ compute_target exampleProfile aggressiveLoss := by
  refine ⟨by norm_num, by norm_num, by norm_num, ?_⟩
  exact (compute_target_deterministic_floor exampleProfile exampleProfile
    aggressiveLoss aggressiveLoss (by norm_num [exampleProfile])
    (by norm_num [exampleProfile]) (by norm_num [exampleProfile]) rfl rfl).2

/-- C7: when credentials are missing or the provider is unreachable, the
checkout adapter returns a result in mode "mock" with the deterministic,
syntactically valid mock URL; it is a total function of its inputs (it
never throws, and equal inputs give equal results). -/
theorem checkout_mock_mode (creds reachable : Bool) (u : String)
    (ings ings2 : List Ingredient)
    (h : creds = false ∨ reachable = false) (hi : ings = ings2) :
    (checkout creds reachable u ings).mode = "mock"
    ∧ isValidUrl (checkout creds reachable u ings).url
    ∧ checkout creds reachable u ings = checkout creds reachable u ings2 := by
  subst hi
  have hcond : ¬(creds = true ∧ reachable = true) := by
    rcases h with h | h <;> simp [h]
  refine ⟨?_, ?_, rfl⟩
  · rw [checkout, if_neg hcond]
  · rw [checkout, if_neg hcond]
    decide

/-- Witness for C7 with missing credentials and a reachable provider. -/
theorem checkout_mock_mode_witness :
    (checkout false true "https://provider.example/cart" []).mode = "mock"
    ∧ isValidUrl (checkout false true "https://provider.example/cart" []).url :=
  ⟨(checkout_mock_mode false true "https://provider.example/cart" [] []
      (Or.inl rfl) rfl).1,
   (checkout_mock_mode false true "https://provider.example/cart" [] []
      (Or.inl rfl) rfl).2.1⟩

/-! ### Aggregation lemmas -/

/-- The keys of a consolidated list. -/
def outKeys (l : List Ingredient) : List (String × String) := l.map outKey

theorem outQty_nil (k : String × String) : outQty [] k = 0 := rfl

theorem outQty_cons (j : Ingredient) (l : List Ingredient)
    (k : String × String) :
    outQty (j :: l) k = (if outKey j = k then j.qty else 0) + outQty l k := by
  by_cases h : outKey j = k
  · simp [outQty, List.filter_cons, h]
  · simp [outQty, List.filter_cons, h]

theorem outQty_addIngredient (acc : List Ingredient) (i : Ingredient)
    (k : String × String) :
    outQty (addIngredient acc i) k
      = outQty acc k + (if normKey i = k then i.qty else 0) := by
  induction acc with
  | nil =>
      rw [show addIngredient [] i
            = [{ name := i.name.toLower, qty := i.qty, unit := i.unit }] from rfl]
      rw [outQty_cons, outQty_nil]
      have : outKey { name := i.name.toLower, qty := i.qty, unit := i.unit }
          = normKey i := rfl
      rw [this, zero_add, add_zero]
  | cons j rest ih =>
      by_cases h : j.name = i.name.toLower ∧ j.unit = i.unit
      · have hstep : addIngredient (j :: rest) i
            = { name := j.name, qty := j.qty + i.qty, unit := j.unit } :: rest := by
          simp only [addIngredient]
          rw [if_pos h]
        rw [hstep, outQty_cons, outQty_cons]
        have houtk : outKey { name := j.name, qty := j.qty + i.qty, unit := j.unit }
            = outKey j := rfl
        have hkey : normKey i = outKey j := by
          simp [normKey, outKey, h.1, h.2]
        rw [houtk, hkey]
        by_cases hk : outKey j = k
        · rw [if_pos hk, if_pos hk, if_pos hk]
          ring
        · rw [if_neg hk, if_neg hk, if_neg hk]
          ring
      · have hstep : addIngredient (j :: rest) i = j :: addIngredient rest i := by
          simp only [addIngredient]
          rw [if_neg h]
        rw [hstep, outQty_cons, outQty_cons, ih]
        ring

theorem outQty_foldl (l acc : List Ingredient) (k : String × String) :
    outQty (l.foldl addIngredient acc) k
      = outQty acc k + ((l.filter (fun i => normKey i = k)).map Ingredient.qty).sum := by
  induction l generalizing acc with
  | nil => simp
  | cons i rest ih =>
      rw [List.foldl_cons, ih, outQty_addIngredient]
      by_cases h : normKey i = k
      · simp [List.filter_cons, h]
        ring
      · simp [List.filter_cons, h]

theorem outQty_aggregate (rs : List (List Ingredient)) (k : String × String) :
    outQty (aggregate rs) k = inputQty rs k := by
  rw [aggregate, outQty_foldl, outQty_nil, zero_add, inputQty]

theorem mem_outKeys_addIngredient (acc : List Ingredient) (i : Ingredient)
    (k : String × String) :
    k ∈ outKeys (addIngredient acc i) ↔ k ∈ outKeys acc ∨ k = normKey i := by
  induction acc with
  | nil =>
      rw [show addIngredient [] i
            = [{ name := i.name.toLower, qty := i.qty, unit := i.unit }] from rfl]
      have : outKey { name := i.name.toLower, qty := i.qty, unit := i.unit }
          = normKey i := rfl
      simp [outKeys, this]
  | cons j rest ih =>
      by_cases h : j.name = i.name.toLower ∧ j.unit = i.unit
      · have hstep : addIngredient (j :: rest) i
            = { name := j.name, qty := j.qty + i.qty, unit := j.unit } :: rest := by
          simp only [addIngredient]
          rw [if_pos h]
        have houtk : outKey { name := j.name, qty := j.qty + i.qty, unit := j.unit }
            = outKey j := rfl
        have hkey : normKey i = outKey j := by
          simp [normKey, outKey, h.1, h.2]
        rw [hstep, hkey]
        simp only [outKeys, List.map_cons, List.mem_cons, houtk]
        tauto
      · have hstep : addIngredient (j :: rest) i = j :: addIngredient rest i := by
          simp only [addIngredient]
          rw [if_neg h]
        rw [hstep]
        simp only [outKeys, List.map_cons, List.mem_cons] at ih ⊢
        rw [ih]
        tauto

theorem nodup_outKeys_addIngredient (acc : List Ingredient) (i : Ingredient)
    (h : (outKeys acc).Nodup) : (outKeys (addIngredient acc i)).Nodup := by
  induction acc with
  | nil =>
      rw [show addIngredient [] i
            = [{ name := i.name.toLower, qty := i.qty, unit := i.unit }] from rfl]
      simp [outKeys]
  | cons j rest ih =>
      rw [outKeys, List.map_cons, List.nodup_cons] at h
      by_cases hc : j.name = i.name.toLower ∧ j.unit = i.unit
      · have hstep : addIngredient (j :: rest) i
            = { name := j.name, qty := j.qty + i.qty, unit := j.unit } :: rest := by
          simp only [addIngredient]
          rw [if_pos hc]
        have houtk : outKey { name := j.name, qty := j.qty + i.qty, unit := j.unit }
            = outKey j := rfl
        rw [hstep, outKeys, List.map_cons, List.nodup_cons, houtk]
        exact ⟨h.1, h.2⟩
      · have hstep : addIngredient (j :: rest) i = j :: addIngredient rest i := by
          simp only [addIngredient]
          rw [if_neg hc]
        rw [hstep, outKeys, List.map_cons, List.nodup_cons]
        refine ⟨?_, ih h.2⟩
        rw [show (addIngredient rest i).map outKey = outKeys (addIngredient rest i)
              from rfl]
        rw [mem_outKeys_addIngredient]
        rintro (hmem | heq)
        · exact h.1 hmem
        · apply hc
          rw [outKey, normKey, Prod.mk.injEq] at heq
          exact heq

theorem nodup_outKeys_foldl (l acc : List Ingredient)
    (h : (outKeys acc).Nodup) :
    (outKeys (l.foldl addIngredient acc)).Nodup := by
  induction l generalizing acc with
  | nil => simpa using h
  | cons i rest ih =>
      rw [List.foldl_cons]
      exact ih _ (nodup_outKeys_addIngredient _ _ h)

theorem mem_outKeys_foldl (l acc : List Ingredient) (k : String × String) :
    k ∈ outKeys (l.foldl addIngredient acc)
      ↔ k ∈ outKeys acc ∨ k ∈ l.map normKey := by
  induction l generalizing acc with
  | nil => simp
  | cons i rest ih =>
      rw [List.foldl_cons, ih, mem_outKeys_addIngredient]
      simp only [List.map_cons, List.mem_cons]
      tauto

/-- C3: aggregation consolidates exactly by (lowercase-normalized name,
unit) key: the consolidated list has no two lines with the same key
(lines sharing a normalized name but differing in unit keep distinct
keys and stay separate), the quantity recorded for each key is the exact
sum of all contributing input quantities, a key appears in the output
exactly when some input line carries it, and both the per-key quantities
and the key set are independent of the order of the input recipes. -/
theorem aggregate_consolidates (rs : List (List Ingredient)) :
    (outKeys (aggregate rs)).Nodup
    ∧ (∀ k, outQty (aggregate rs) k = inputQty rs k)
    ∧ (∀ k, k ∈ outKeys (aggregate rs) ↔ k ∈ rs.flatten.map normKey)
    ∧ (∀ rs', rs.Perm rs' →
        (∀ k, outQty (aggregate rs') k = outQty (aggregate rs) k)
        ∧ (∀ k, k ∈ outKeys (aggregate rs') ↔ k ∈ outKeys (aggregate rs))) := by
  refine ⟨nodup_outKeys_foldl _ [] (by simp [outKeys]),
    fun k => outQty_aggregate rs k, ?_, ?_⟩
  · intro k
    rw [aggregate, mem_outKeys_foldl]
    simp [outKeys]
  · intro rs' hperm
    have hflat : rs.flatten.Perm rs'.flatten := hperm.flatten
    constructor
    · intro k
      rw [outQty_aggregate, outQty_aggregate, inputQty, inputQty]
      exact ((hflat.filter _).map _).sum_eq.symm
    · intro k
      rw [aggregate, aggregate, mem_outKeys_foldl, mem_outKeys_foldl]
      have := (hflat.map normKey).mem_iff (a := k)
      tauto

/-- Witness for C3's order-independence at the spec's flour example:
two recipe lists that are permutations of one another yield the same
consolidated quantity for the ("flour", "g") key. -/
theorem aggregate_consolidates_witness :
    outQty (aggregate [[⟨"flour", 100, "g"⟩, ⟨"flour", 1, "cup"⟩], [⟨"Flour", 200, "g"⟩]])
        ("flour", "g")
      = outQty (aggregate [[⟨"Flour", 200, "g"⟩], [⟨"flour", 100, "g"⟩, ⟨"flour", 1, "cup"⟩]])
        ("flour", "g") :=
  ((aggregate_consolidates
      [[⟨"Flour", 200, "g"⟩], [⟨"flour", 100, "g"⟩, ⟨"flour", 1, "cup"⟩]]).2.2.2
    [[⟨"flour", 100, "g"⟩, ⟨"flour", 1, "cup"⟩], [⟨"Flour", 200, "g"⟩]]
    (List.Perm.swap _ _ _)).1 ("flour", "g")

end Hackathons
